import Mathlib

/-!
Shallow embedding of the Vulkan device layer of the `blade` engine
(`blade-graphics/src/vulkan/mod.rs`): format catalog, subresource-range
mapping, memory-type validity mask, queue submission / progress counter,
adapter inspection and selection, context initialization error paths,
and command-encoder creation / destruction.

Machine integers are modelled as `Nat` with explicit `% 2^w` where the
source arithmetic can overflow.  Native Vulkan calls are modelled by an
explicit event log of calls and a fresh-handle counter.
-/

namespace Blade

/-! ## Format catalog and aspects -/

/-- Bit-mask values from the source `bitflags` block: `COLOR = 0 << 1`, `DEPTH = 1 << 1`,
`STENCIL = 1 << 2` (bit masks over `u32`). -/
def FormatAspectsCOLOR : Nat := 0 <<< 1

def FormatAspectsDEPTH : Nat := 1 <<< 1

def FormatAspectsSTENCIL : Nat := 1 <<< 2

/-- The `bitflags` `contains` operation: every bit of `f` is present in `s`. -/
def aspectsContains (s f : Nat) : Bool := s &&& f == f

/-- Native `vk::ImageAspectFlags` bit values. -/
def vkAspectCOLOR : Nat := 1

def vkAspectDEPTH : Nat := 2

def vkAspectSTENCIL : Nat := 4

/-- Embedding of `map_aspects` from the source: start from the empty native flag set and
or-in each native aspect whose abstract counterpart is contained. -/
def map_aspects (aspects : Nat) : Nat :=
  let flags := 0
  let flags := if aspectsContains aspects FormatAspectsCOLOR then flags ||| vkAspectCOLOR else flags
  let flags := if aspectsContains aspects FormatAspectsDEPTH then flags ||| vkAspectDEPTH else flags
  let flags := if aspectsContains aspects FormatAspectsSTENCIL then flags ||| vkAspectSTENCIL else flags
  flags

/-- The two abstract texture formats handled by `describe_format`. -/
inductive TextureFormat where
  | Rgba8Unorm
  | Bgra8UnormSrgb
deriving DecidableEq

structure BlockInfo where
  bytes : Nat
  width : Nat
  height : Nat
deriving DecidableEq

structure FormatInfo where
  raw : Nat
  aspects : Nat
  block : BlockInfo
deriving DecidableEq

/-- Native `vk::Format` codes for the two formats used by the source. -/
def vkFormatR8G8B8A8_UNORM : Nat := 37

def vkFormatB8G8R8A8_SRGB : Nat := 50

/-- Embedding of `describe_format` from the source: format → native code, aspect set and
block info. -/
def describe_format (format : TextureFormat) : FormatInfo :=
  let (raw, aspects, bytes) :=
    match format with
    | .Rgba8Unorm => (vkFormatR8G8B8A8_UNORM, FormatAspectsCOLOR, 4)
    | .Bgra8UnormSrgb => (vkFormatB8G8R8A8_SRGB, FormatAspectsCOLOR, 4)
  { raw := raw, aspects := aspects, block := { bytes := bytes, width := 1, height := 1 } }

/-! ## Subresource ranges -/

/-- Native `vk::REMAINING_MIP_LEVELS` (`!0u32`). -/
def REMAINING_MIP_LEVELS : Nat := 2 ^ 32 - 1

/-- Native `vk::REMAINING_ARRAY_LAYERS` (`!0u32`). -/
def REMAINING_ARRAY_LAYERS : Nat := 2 ^ 32 - 1

/-- Modelled from the spec: `crate::TextureSubresources` is not under `src/`;
the spec gives `{base_mip_level, mip_level_count?, base_array_layer,
array_layer_count?}` with optional counts (`NonZeroU32` in the source's use,
whose `get` returns the value). -/
structure TextureSubresources where
  base_mip_level : Nat
  mip_level_count : Option Nat
  base_array_layer : Nat
  array_layer_count : Option Nat
deriving DecidableEq

structure ImageSubresourceRange where
  aspect_mask : Nat
  base_mip_level : Nat
  level_count : Nat
  base_array_layer : Nat
  layer_count : Nat
deriving DecidableEq

/-- Embedding of `map_subresource_range` from the source: pass base levels through, map an
absent count to the native remaining sentinel via `map_or`. -/
def map_subresource_range (subresources : TextureSubresources) (aspects : Nat) :
    ImageSubresourceRange :=
  { aspect_mask := map_aspects aspects
    base_mip_level := subresources.base_mip_level
    level_count :=
      match subresources.mip_level_count with
      | none => REMAINING_MIP_LEVELS
      | some n => n
    base_array_layer := subresources.base_array_layer
    layer_count :=
      match subresources.array_layer_count with
      | none => REMAINING_ARRAY_LAYERS
      | some n => n }

/-! ## Timeout mapping and wait results -/

/-- Embedding of `map_timeout` from the source: `millis as u64 * 1_000_000`.  The input is
a `u32`; the multiplication happens in `u64`, hence the `% 2^64`. -/
def map_timeout (millis : Nat) : Nat := millis * 1000000 % 2 ^ 64

/-- Outcome of the native `wait_semaphores` call. -/
inductive VkWaitError where
  | timeout
  | deviceLost
deriving DecidableEq

/-- The tail of `Context::wait_for`: the native result is turned into a
boolean via `.is_ok()`; a timeout is not propagated as an error. -/
def wait_for_outcome (native : Except VkWaitError Unit) : Bool :=
  match native with
  | .ok _ => true
  | .error _ => false

/-! ## Memory-type validity mask -/

/-- Native `vk::MemoryPropertyFlags` bits. -/
def MEMORY_DEVICE_LOCAL : Nat := 1

def MEMORY_HOST_VISIBLE : Nat := 2

def MEMORY_HOST_COHERENT : Nat := 4

def MEMORY_HOST_CACHED : Nat := 8

def MEMORY_LAZILY_ALLOCATED : Nat := 16

/-- The closed set of property flags the allocator understands
(`known_memory_flags` in `Context::init`). -/
def known_memory_flags : Nat :=
  MEMORY_DEVICE_LOCAL ||| MEMORY_HOST_VISIBLE ||| MEMORY_HOST_COHERENT |||
    MEMORY_HOST_CACHED ||| MEMORY_LAZILY_ALLOCATED

/-- The `enumerate().fold(0, ...)` over memory types from `Context::init`,
with the running index made explicit. -/
def validMaskFold (i : Nat) (types : List Nat) (u : Nat) : Nat :=
  match types with
  | [] => u
  | mem :: rest =>
      validMaskFold (i + 1) rest
        (if known_memory_flags &&& mem == mem then u ||| (1 <<< i) else u)

/-- The `valid_ash_memory_types` computation from `Context::init`: bit `i` is set when
memory-type `i`'s property flags are contained in `known_memory_flags`. -/
def valid_ash_memory_types (types : List Nat) : Nat :=
  validMaskFold 0 types 0

/-! ## Queue and submission -/

/-- Modulus of `u64` arithmetic. -/
def U64_MOD : Nat := 2 ^ 64

/-- The queue state (`Queue` in the source): native queue handle, timeline
semaphore handle, and the `u64` high-water progress mark. -/
structure Queue where
  raw : Nat
  timeline_semaphore : Nat
  last_progress : Nat
deriving DecidableEq

structure SyncPoint where
  progress : Nat
deriving DecidableEq

/-- Embedding of `Context::submit`, restricted to its queue-state effect: under the queue
lock, `last_progress` is incremented (`u64` arithmetic) and the submission
signals and returns the new value. -/
def submit (q : Queue) : Queue × SyncPoint :=
  let progress := (q.last_progress + 1) % U64_MOD
  ({ q with last_progress := progress }, { progress := progress })

/-- The queue as built at the end of `Context::init`: `last_progress = 0`. -/
def initQueue (raw timeline_semaphore : Nat) : Queue :=
  { raw := raw, timeline_semaphore := timeline_semaphore, last_progress := 0 }

/-- Progress values returned by `n` consecutive `submit` calls. -/
def submitProgress (n : Nat) (q : Queue) : List Nat :=
  match n with
  | 0 => []
  | n + 1 =>
      let (q', sp) := submit q
      sp.progress :: submitProgress n q'

/-- Progress value observed by the `k`-th (0-based) of `n` submissions made
on a freshly initialized queue. -/
def progressAt (n k : Nat) : Nat :=
  (submitProgress n (initQueue 0 0)).getD k 0

/-! ## Adapter inspection and selection -/

/-- The properties and features `inspect_adapter` queries for a physical
device, plus its general properties (kept abstract as a `Nat` id). -/
structure AdapterInfo where
  properties : Nat
  max_inline_uniform_block_size : Nat
  max_descriptor_set_inline_uniform_blocks : Nat
  inline_uniform_block_feature : Nat
  timeline_semaphore_feature : Nat
deriving DecidableEq

structure AdapterCapabilities where
  properties : Nat
deriving DecidableEq

/-- Embedding of `inspect_adapter` from the source, parameterized by
`crate::limits::PLAIN_DATA_SIZE` (a crate constant outside this module):
reject for inline uniform blocks, then for timeline semaphores, otherwise
return the capabilities. -/
def inspect_adapter (plain_data_size : Nat) (phd : AdapterInfo) :
    Option AdapterCapabilities :=
  if phd.max_inline_uniform_block_size < plain_data_size
      ∨ phd.max_descriptor_set_inline_uniform_blocks = 0
      ∨ phd.inline_uniform_block_feature = 0 then
    none
  else if phd.timeline_semaphore_feature = 0 then
    none
  else
    some { properties := phd.properties }

/-- The `find_map` over enumerated physical devices in `Context::init`. -/
def selectAdapter (plain_data_size : Nat) (devices : List AdapterInfo) :
    Option (AdapterInfo × AdapterCapabilities) :=
  devices.findSome? fun phd =>
    (inspect_adapter plain_data_size phd).map fun caps => (phd, caps)

/-! ## Context initialization -/

/-- The one error type surfaced by initialization. -/
inductive NotSupportedError where
  | notSupported
deriving DecidableEq

/-- Generic failure of a native enumeration call. -/
inductive VkCallError where
  | failed
deriving DecidableEq

/-- The `ContextDesc` struct from the crate root: validation and capture toggles. -/
structure ContextDesc where
  validation : Bool
  capture : Bool
deriving DecidableEq

/-- Instance-extension names used by `Context::init`. -/
def EXT_DEBUG_UTILS : String := "VK_EXT_debug_utils"

def KHR_GET_PHYSICAL_DEVICE_PROPERTIES2 : String := "VK_KHR_get_physical_device_properties2"

def KHR_PORTABILITY_ENUMERATION : String := "VK_KHR_portability_enumeration"

/-- The environment `Context::init` probes: the outcome of each fallible
native call it makes, in program order. -/
structure VkEnvironment where
  /-- Result of `ash::Entry::load()`: `none` when the Vulkan entry points are missing. -/
  entry : Option Unit
  /-- Result of `try_enumerate_instance_version`: `ok none` means Vulkan 1.0 (no
  instance-version query), `ok (some v)` is a 1.1+ driver version. -/
  instance_version : Except VkCallError (Option Nat)
  /-- Result of `enumerate_instance_layer_properties`. -/
  layer_properties : Except VkCallError (List String)
  /-- Result of `enumerate_instance_extension_properties`. -/
  instance_extensions : Except VkCallError (List String)
  /-- Enumerated physical devices with their inspected properties. -/
  physical_devices : List AdapterInfo

/-- What a successful `Context::init` determines (the parts the claims are
about): the selected physical device, its capabilities, whether portability
was enabled, and the initial queue. -/
structure InitOutcome where
  physical_device : AdapterInfo
  capabilities : AdapterCapabilities
  portability : Bool
  queue : Queue
deriving DecidableEq

/-- Embedding of `Context::init` from the source, over a `VkEnvironment`: each fallible
step either proceeds or returns `NotSupportedError`; the mandatory instance
extensions are checked against the supported list; the first adapter passing
`inspect_adapter` is selected; the queue starts at progress 0. -/
def contextInit (plain_data_size : Nat) (_desc : ContextDesc)
    (env : VkEnvironment) : Except NotSupportedError InitOutcome :=
  match env.entry with
  | none => .error .notSupported
  | some _ =>
  match env.instance_version with
  | .error _ => .error .notSupported
  | .ok none => .error .notSupported
  | .ok (some _driver_api_version) =>
  match env.layer_properties with
  | .error _ => .error .notSupported
  | .ok _supported_layers =>
  match env.instance_extensions with
  | .error _ => .error .notSupported
  | .ok supported_instance_extensions =>
  let is_vulkan_portability :=
    supported_instance_extensions.contains KHR_PORTABILITY_ENUMERATION
  let instance_extensions := [EXT_DEBUG_UTILS, KHR_GET_PHYSICAL_DEVICE_PROPERTIES2]
  if instance_extensions.all fun inst_ext =>
      supported_instance_extensions.contains inst_ext then
    match selectAdapter plain_data_size env.physical_devices with
    | none => .error .notSupported
    | some (physical_device, capabilities) =>
        .ok { physical_device := physical_device
              capabilities := capabilities
              portability := is_vulkan_portability
              queue := initQueue 0 0 }
  else .error .notSupported

/-- The disjunction of `Context::init`'s failure conditions, in program
order: entry loading, version query, layer enumeration, extension
enumeration, a missing mandatory instance extension, and no physical device
passing inspection. -/
def initFails (plain_data_size : Nat) (env : VkEnvironment) : Prop :=
  env.entry = none
    ∨ env.instance_version = .error .failed
    ∨ env.instance_version = .ok none
    ∨ env.layer_properties = .error .failed
    ∨ env.instance_extensions = .error .failed
    ∨ (∃ exts, env.instance_extensions = .ok exts ∧
        ¬ ([EXT_DEBUG_UTILS, KHR_GET_PHYSICAL_DEVICE_PROPERTIES2].all fun e =>
            exts.contains e))
    ∨ selectAdapter plain_data_size env.physical_devices = none

/-! ## Command encoder -/

/-- Heuristic descriptor-pool capacity from `create_command_encoder`. -/
def ROUGH_SET_COUNT : Nat := 100

/-- Native calls made by encoder creation and destruction.  Handles are
`Nat`; the device hands out fresh ones from a counter. -/
inductive VkCall where
  | createCommandPool (pool : Nat)
  | allocateCommandBuffers (pool count : Nat) (bufs : List Nat)
  | setObjectName (handle : Nat) (name : String)
  | createDescriptorPool (max_sets pool : Nat)
  | freeCommandBuffers (pool : Nat) (bufs : List Nat)
  | destroyDescriptorPool (pool : Nat)
  | destroyCommandPool (pool : Nat)
deriving DecidableEq

/-- The `CommandBuffer` pair from the source: a raw command buffer paired with its
descriptor pool. -/
structure CommandBuffer where
  raw : Nat
  descriptor_pool : Nat
deriving DecidableEq

/-- The `CommandEncoder` struct from the source (the device handle is implicit in the
model; `update_data` starts empty). -/
structure CommandEncoder where
  pool : Nat
  buffers : List CommandBuffer
  update_data : List Nat
deriving DecidableEq

/-- The `CommandEncoderDesc` struct from the crate root. -/
structure CommandEncoderDesc where
  buffer_count : Nat
  name : String
deriving DecidableEq

/-- The per-buffer loop of `create_command_encoder`: for each raw command
buffer, label it when the name is non-empty, then create its own descriptor
pool (a fresh handle).  Returns the buffer pairs, the next fresh handle and
the calls made. -/
def mkCommandBuffers (name : String) (raws : List Nat) (next : Nat) :
    List CommandBuffer × Nat × List VkCall :=
  match raws with
  | [] => ([], next, [])
  | raw :: rest =>
      let nameCalls : List VkCall :=
        if name = "" then [] else [.setObjectName raw name]
      let descriptor_pool := next
      let (tail, next', calls) := mkCommandBuffers name rest (next + 1)
      (⟨raw, descriptor_pool⟩ :: tail, next',
        nameCalls ++ (.createDescriptorPool ROUGH_SET_COUNT descriptor_pool :: calls))

/-- Embedding of `Context::create_command_encoder`: create one command pool, allocate
`buffer_count` command buffers from it, then pair each with its own fresh
descriptor pool.  `st` is the device's fresh-handle counter; the result is
the encoder, the new counter, and the log of native calls. -/
def create_command_encoder (st : Nat) (desc : CommandEncoderDesc) :
    CommandEncoder × Nat × List VkCall :=
  let pool := st
  let raws := List.range' (st + 1) desc.buffer_count
  let (buffers, next', calls) :=
    mkCommandBuffers desc.name raws (st + 1 + desc.buffer_count)
  ({ pool := pool, buffers := buffers, update_data := [] }, next',
    .createCommandPool pool :: .allocateCommandBuffers pool desc.buffer_count raws :: calls)

/-- Embedding of `Context::destroy_command_encoder`: for each buffer, free the command
buffer from the pool and destroy its descriptor pool; finally destroy the
command pool. -/
def destroy_command_encoder (encoder : CommandEncoder) : List VkCall :=
  (encoder.buffers.foldl
    (fun log cmd_buf =>
      log ++ [.freeCommandBuffers encoder.pool [cmd_buf.raw],
              .destroyDescriptorPool cmd_buf.descriptor_pool])
    []) ++ [.destroyCommandPool encoder.pool]

/-! ## Theorems -/

/-- C6: `map_subresource_range` passes `base_mip_level` and
`base_array_layer` through unchanged, maps an absent `mip_level_count` to
`REMAINING_MIP_LEVELS` and a present count `n` to `n`, and maps an absent
`array_layer_count` to `REMAINING_ARRAY_LAYERS` and a present count `n`
to `n`. -/
theorem map_subresource_range_spec (s : TextureSubresources) (aspects : Nat) :
    (map_subresource_range s aspects).base_mip_level = s.base_mip_level
    ∧ (map_subresource_range s aspects).base_array_layer = s.base_array_layer
    ∧ (s.mip_level_count = none →
        (map_subresource_range s aspects).level_count = REMAINING_MIP_LEVELS)
    ∧ (∀ n, s.mip_level_count = some n →
        (map_subresource_range s aspects).level_count = n)
    ∧ (s.array_layer_count = none →
        (map_subresource_range s aspects).layer_count = REMAINING_ARRAY_LAYERS)
    ∧ (∀ n, s.array_layer_count = some n →
        (map_subresource_range s aspects).layer_count = n) := by
  refine ⟨rfl, rfl, ?_, ?_, ?_, ?_⟩ <;> intro h
  · simp [map_subresource_range, h]
  · intro hn; simp [map_subresource_range, hn]
  · simp [map_subresource_range, h]
  · intro hn; simp [map_subresource_range, hn]

/-- Witness for C6 at a concrete subresource descriptor. -/
theorem map_subresource_range_spec_witness :
    (map_subresource_range ⟨2, some 3, 5, none⟩ 0).level_count = 3
    ∧ (map_subresource_range ⟨2, some 3, 5, none⟩ 0).layer_count =
        REMAINING_ARRAY_LAYERS := by
  have h := map_subresource_range_spec ⟨2, some 3, 5, none⟩ 0
  exact ⟨h.2.2.2.1 3 rfl, h.2.2.2.2.1 rfl⟩

/-- C9: the millisecond timeout is converted to nanoseconds as
`timeout_ms * 1_000_000` in 64-bit arithmetic, which never overflows for a
`u32` input, and a native timeout produces the boolean `false` rather than
an error. -/
theorem map_timeout_spec (millis : Nat) (h : millis < 2 ^ 32) :
    map_timeout millis = millis * 1000000
    ∧ millis * 1000000 < 2 ^ 64
    ∧ wait_for_outcome (.error .timeout) = false := by
  have hle : millis ≤ 4294967295 := by omega
  have hlt : millis * 1000000 < 2 ^ 64 := by
    calc millis * 1000000 ≤ 4294967295 * 1000000 := Nat.mul_le_mul_right _ hle
      _ < 2 ^ 64 := by norm_num
  exact ⟨Nat.mod_eq_of_lt hlt, hlt, rfl⟩

/-- Witness for C9 at the largest `u32` timeout. -/
theorem map_timeout_spec_witness :
    map_timeout 4294967295 = 4294967295 * 1000000
    ∧ wait_for_outcome (.error .timeout) = false := by
  have h := map_timeout_spec 4294967295 (by norm_num)
  exact ⟨h.1, h.2.2⟩

/-- C10: `FormatAspects::COLOR` is `0 << 1`, the empty flag set, so
`map_aspects` includes the native COLOR image-aspect bit for every aspect
set, in particular for the aspect sets of both supported formats. -/
theorem color_aspect_spec (aspects : Nat) :
    FormatAspectsCOLOR = 0
    ∧ map_aspects aspects &&& vkAspectCOLOR = vkAspectCOLOR
    ∧ map_aspects (describe_format .Rgba8Unorm).aspects &&& vkAspectCOLOR = vkAspectCOLOR
    ∧ map_aspects (describe_format .Bgra8UnormSrgb).aspects &&& vkAspectCOLOR =
        vkAspectCOLOR := by
  refine ⟨rfl, ?_, by decide, by decide⟩
  simp only [map_aspects, aspectsContains, FormatAspectsCOLOR, FormatAspectsDEPTH,
    FormatAspectsSTENCIL, vkAspectCOLOR, vkAspectDEPTH, vkAspectSTENCIL]
  split <;> split <;> split <;> simp_all

/-- C3: `inspect_adapter` disqualifies a device exactly when the inline
uniform block size is below the required inline-data size, or there are no
inline-block descriptor slots, or the inline-uniform-block feature is off,
or the timeline-semaphore feature is off; otherwise it returns the
capabilities. -/
theorem inspect_adapter_spec (plain_data_size : Nat) (phd : AdapterInfo) :
    (inspect_adapter plain_data_size phd = none ↔
      (phd.max_inline_uniform_block_size < plain_data_size
        ∨ phd.max_descriptor_set_inline_uniform_blocks = 0
        ∨ phd.inline_uniform_block_feature = 0
        ∨ phd.timeline_semaphore_feature = 0))
    ∧ (¬ (phd.max_inline_uniform_block_size < plain_data_size
          ∨ phd.max_descriptor_set_inline_uniform_blocks = 0
          ∨ phd.inline_uniform_block_feature = 0
          ∨ phd.timeline_semaphore_feature = 0) →
        inspect_adapter plain_data_size phd = some { properties := phd.properties }) := by
  have hiff : inspect_adapter plain_data_size phd = none ↔
      (phd.max_inline_uniform_block_size < plain_data_size
        ∨ phd.max_descriptor_set_inline_uniform_blocks = 0
        ∨ phd.inline_uniform_block_feature = 0
        ∨ phd.timeline_semaphore_feature = 0) := by
    unfold inspect_adapter
    split
    · rename_i hiub; simp; tauto
    · rename_i hiub
      split
      · rename_i hts; simp; tauto
      · rename_i hts
        simp
        push_neg at hiub
        exact ⟨hiub.1, hiub.2.1, hiub.2.2, hts⟩
  refine ⟨hiff, fun hno => ?_⟩
  unfold inspect_adapter
  rw [if_neg (fun hc => hno (by
        rcases hc with h | h | h
        exacts [Or.inl h, Or.inr (Or.inl h), Or.inr (Or.inr (Or.inl h))])),
    if_neg (fun hts => hno (Or.inr (Or.inr (Or.inr hts))))]

/-- Witness for C3 at a concrete passing adapter. -/
theorem inspect_adapter_spec_witness :
    inspect_adapter 256 ⟨7, 256, 4, 1, 1⟩ = some { properties := 7 } := by
  exact (inspect_adapter_spec 256 ⟨7, 256, 4, 1, 1⟩).2 (by decide)

/-- Characterization of the memory-type fold: bit `j` of the result is set
when it was set in the accumulator, or when it corresponds to a memory type
whose flags are contained in the known set. -/
theorem validMaskFold_testBit : ∀ (types : List Nat) (k u j : Nat),
    (validMaskFold k types u).testBit j = true ↔
      (u.testBit j = true ∨
        ∃ idx, ∃ h : idx < types.length, j = k + idx ∧
          known_memory_flags &&& types.get ⟨idx, h⟩ = types.get ⟨idx, h⟩)
  | [], k, u, j => by simp [validMaskFold]
  | mem :: rest, k, u, j => by
      simp only [validMaskFold]
      by_cases hc : known_memory_flags &&& mem = mem
      · rw [if_pos (by simpa using hc)]
        rw [validMaskFold_testBit rest (k + 1) (u ||| 1 <<< k) j]
        constructor
        · rintro (hu | ⟨idx, hidx, hj, hp⟩)
          · rw [Nat.testBit_or] at hu
            rcases (Bool.or_eq_true _ _).mp hu with hu | hk
            · exact Or.inl hu
            · right
              refine ⟨0, by simp, ?_, by simpa using hc⟩
              have hkj : k = j := by
                rw [Nat.one_shiftLeft, Nat.testBit_two_pow] at hk
                exact of_decide_eq_true hk
              omega
          · exact Or.inr ⟨idx + 1, by simpa using hidx, by omega, by simpa using hp⟩
        · rintro (hu | ⟨idx, hidx, hj, hp⟩)
          · left; rw [Nat.testBit_or, hu]; simp
          · cases idx with
            | zero =>
                left
                rw [Nat.testBit_or]
                have hbit : (1 <<< k).testBit j = true := by
                  rw [Nat.one_shiftLeft, Nat.testBit_two_pow]
                  simp only [Nat.add_zero] at hj
                  simp [hj]
                rw [hbit]; simp
            | succ i =>
                right
                exact ⟨i, by simpa using hidx, by omega, by simpa using hp⟩
      · rw [if_neg (by simpa using hc)]
        rw [validMaskFold_testBit rest (k + 1) u j]
        constructor
        · rintro (hu | ⟨idx, hidx, hj, hp⟩)
          · exact Or.inl hu
          · exact Or.inr ⟨idx + 1, by simpa using hidx, by omega, by simpa using hp⟩
        · rintro (hu | ⟨idx, hidx, hj, hp⟩)
          · exact Or.inl hu
          · cases idx with
            | zero => exact absurd (by simpa using hp) hc
            | succ i =>
                right
                exact ⟨i, by simpa using hidx, by omega, by simpa using hp⟩

/-- C5: bit `i` of the validity mask is set iff memory-type `i` exists and
its property flags are a subset of the known closed flag set; a type with
any unknown property bit is excluded. -/
theorem valid_memory_mask_spec (types : List Nat) (i : Nat) :
    (valid_ash_memory_types types).testBit i = true ↔
      ∃ h : i < types.length,
        known_memory_flags &&& types.get ⟨i, h⟩ = types.get ⟨i, h⟩ := by
  unfold valid_ash_memory_types
  rw [validMaskFold_testBit]
  constructor
  · rintro (h0 | ⟨idx, hidx, hj, hp⟩)
    · simp at h0
    · have hidx' : idx = i := by omega
      subst hidx'
      exact ⟨hidx, hp⟩
  · rintro ⟨h, hp⟩
    exact Or.inr ⟨i, h, by omega, hp⟩

/-- Length of the progress list produced by `n` submissions. -/
theorem submitProgress_length : ∀ (n : Nat) (q : Queue),
    (submitProgress n q).length = n
  | 0, _ => rfl
  | n + 1, q => by
      simp only [submitProgress]
      rw [List.length_cons, submitProgress_length n]

/-- The `k`-th of `n` submissions returns progress
`(initial + k + 1) mod 2^64`. -/
theorem submitProgress_getD : ∀ (n : Nat) (q : Queue) (k : Nat), k < n →
    (submitProgress n q).getD k 0 = (q.last_progress + k + 1) % U64_MOD
  | 0, _, k, hk => absurd hk (by omega)
  | n + 1, q, k, _ => by
      simp only [submitProgress, submit]
      cases k with
      | zero => simp
      | succ k' =>
          rw [List.getD_cons_succ, submitProgress_getD n _ k' (by omega)]
          show ((q.last_progress + 1) % U64_MOD + k' + 1) % U64_MOD = _
          conv_lhs => rw [Nat.add_assoc, Nat.mod_add_mod]
          ring_nf

/-- C1: `submit` returns a `SyncPoint` carrying the queue's freshly
incremented `last_progress`, and over any sequence of fewer than `2^64`
submissions on one freshly initialized queue the returned progress values
are strictly increasing in submission order, hence pairwise distinct. -/
theorem submit_progress_spec :
    (∀ q : Queue, (submit q).2.progress = (submit q).1.last_progress
      ∧ (submit q).1.last_progress = (q.last_progress + 1) % U64_MOD)
    ∧ (∀ n i j : Nat, i < j → j < n → n < U64_MOD →
        progressAt n i < progressAt n j)
    ∧ (∀ n i j : Nat, i < n → j < n → n < U64_MOD → i ≠ j →
        progressAt n i ≠ progressAt n j) := by
  have hmono : ∀ n i j : Nat, i < j → j < n → n < U64_MOD →
      progressAt n i < progressAt n j := by
    intro n i j hij hjn hn
    unfold progressAt
    rw [submitProgress_getD n _ i (by omega), submitProgress_getD n _ j (by omega)]
    show (0 + i + 1) % U64_MOD < (0 + j + 1) % U64_MOD
    rw [Nat.mod_eq_of_lt (by omega), Nat.mod_eq_of_lt (by omega)]
    omega
  refine ⟨fun q => ⟨rfl, rfl⟩, hmono, ?_⟩
  intro n i j hin hjn hn hne
  rcases Nat.lt_or_ge i j with hij | hij
  · exact Nat.ne_of_lt (hmono n i j hij hjn hn)
  · exact (Nat.ne_of_lt (hmono n j i (by omega) hin hn)).symm

/-- Witness for C1: three submissions on a fresh queue yield strictly
increasing progress values. -/
theorem submit_progress_spec_witness : progressAt 3 0 < progressAt 3 2 :=
  submit_progress_spec.2.1 3 0 2 (by norm_num) (by norm_num)
    (by norm_num [U64_MOD])

/-- Shared helper: `contextInit` returns `NotSupportedError` exactly when
one of its fallible steps fails. -/
theorem contextInit_error_iff (plain_data_size : Nat) (desc : ContextDesc)
    (env : VkEnvironment) :
    contextInit plain_data_size desc env = .error .notSupported ↔
      initFails plain_data_size env := by
  rcases env with ⟨entry, ver, layers, exts, devs⟩
  unfold contextInit initFails
  cases entry with
  | none => simp
  | some u =>
      cases ver with
      | error e => cases e; simp
      | ok vo =>
          cases vo with
          | none => simp
          | some v =>
              cases layers with
              | error e => cases e; simp
              | ok ls =>
                  cases exts with
                  | error e => cases e; simp
                  | ok es =>
                      cases hall : [EXT_DEBUG_UTILS,
                          KHR_GET_PHYSICAL_DEVICE_PROPERTIES2].all
                            fun e => es.contains e with
                      | true =>
                          simp only [hall, if_true]
                          cases hsel : selectAdapter plain_data_size devs with
                          | none => simp [hsel]
                          | some pc =>
                              simp [hsel]
                              simpa using hall
                      | false =>
                          have hmem : ¬ (EXT_DEBUG_UTILS ∈ es
                              ∧ KHR_GET_PHYSICAL_DEVICE_PROPERTIES2 ∈ es) := by
                            simpa using hall
                          simp only [hall]
                          simp
                          tauto

/-- C2: every fallible step of `Context::init` is fatal and surfaces
`NotSupportedError`: a missing entry point, a failed or absent instance
version, failed layer or extension enumeration, a missing mandatory
instance extension, and no physical device passing inspection each make
`init` return the error, and nothing else does. -/
theorem context_init_not_supported_spec (plain_data_size : Nat)
    (desc : ContextDesc) (env : VkEnvironment) :
    contextInit plain_data_size desc env = .error .notSupported ↔
      initFails plain_data_size env :=
  contextInit_error_iff plain_data_size desc env

/-- First-match characterization of the adapter `find_map`. -/
theorem selectAdapter_first (plain_data_size : Nat) :
    ∀ (devices : List AdapterInfo) (i : Nat) (hi : i < devices.length)
      (caps : AdapterCapabilities),
      (∀ (j : Nat) (hj : j < i),
        inspect_adapter plain_data_size (devices.get ⟨j, Nat.lt_trans hj hi⟩) = none) →
      inspect_adapter plain_data_size (devices.get ⟨i, hi⟩) = some caps →
      selectAdapter plain_data_size devices = some (devices.get ⟨i, hi⟩, caps)
  | [], i, hi, _, _, _ => absurd hi (by simp)
  | d :: rest, 0, hi, caps, _, hcaps => by
      have hcaps' : inspect_adapter plain_data_size d = some caps := hcaps
      show selectAdapter plain_data_size (d :: rest) = some (d, caps)
      unfold selectAdapter
      rw [List.findSome?_cons, hcaps']
      rfl
  | d :: rest, i + 1, hi, caps, hprev, hcaps => by
      have hd : inspect_adapter plain_data_size d = none :=
        hprev 0 (Nat.succ_pos i)
      have hrest : i < rest.length := Nat.lt_of_succ_lt_succ hi
      have ih := selectAdapter_first plain_data_size rest i hrest caps
        (fun j hj => hprev (j + 1) (Nat.succ_lt_succ hj)) hcaps
      show selectAdapter plain_data_size (d :: rest) = some (rest.get ⟨i, hrest⟩, caps)
      unfold selectAdapter at ih ⊢
      rw [List.findSome?_cons, hd]
      simpa using ih

/-- C4: `Context::init` selects the first device, in enumeration order, that
passes `inspect_adapter`; appending further devices after a passing one does
not change the selection; and when no device passes, `init` returns
`NotSupportedError`. -/
theorem adapter_selection_spec (plain_data_size : Nat)
    (devices : List AdapterInfo) :
    (∀ (i : Nat) (hi : i < devices.length) (caps : AdapterCapabilities),
      (∀ (j : Nat) (hj : j < i),
        inspect_adapter plain_data_size (devices.get ⟨j, Nat.lt_trans hj hi⟩) = none) →
      inspect_adapter plain_data_size (devices.get ⟨i, hi⟩) = some caps →
      selectAdapter plain_data_size devices = some (devices.get ⟨i, hi⟩, caps))
    ∧ (∀ extra : List AdapterInfo,
        (selectAdapter plain_data_size devices).isSome = true →
        selectAdapter plain_data_size (devices ++ extra) =
          selectAdapter plain_data_size devices)
    ∧ (∀ (desc : ContextDesc) (env : VkEnvironment),
        selectAdapter plain_data_size env.physical_devices = none →
        contextInit plain_data_size desc env = .error .notSupported) := by
  refine ⟨selectAdapter_first plain_data_size devices, ?_, ?_⟩
  · intro extra hsome
    unfold selectAdapter at hsome ⊢
    obtain ⟨x, hx⟩ := Option.isSome_iff_exists.mp hsome
    rw [List.findSome?_append, hx]
    rfl
  · intro desc env hsel
    exact (contextInit_error_iff plain_data_size desc env).mpr
      (Or.inr (Or.inr (Or.inr (Or.inr (Or.inr (Or.inr hsel))))))

/-- Witness for C4: with one failing and one passing device, the second
device (index 1) is selected, and appending another passing device changes
nothing. -/
theorem adapter_selection_spec_witness :
    selectAdapter 256 [⟨0, 0, 0, 0, 0⟩, ⟨1, 256, 4, 1, 1⟩] =
      some (⟨1, 256, 4, 1, 1⟩, { properties := 1 })
    ∧ selectAdapter 256 ([⟨0, 0, 0, 0, 0⟩, ⟨1, 256, 4, 1, 1⟩] ++ [⟨2, 512, 4, 1, 1⟩]) =
        selectAdapter 256 [⟨0, 0, 0, 0, 0⟩, ⟨1, 256, 4, 1, 1⟩] := by
  have h := adapter_selection_spec 256 [⟨0, 0, 0, 0, 0⟩, ⟨1, 256, 4, 1, 1⟩]
  refine ⟨?_, ?_⟩
  · refine h.1 1 (by norm_num) { properties := 1 } (fun j hj => ?_) ?_
    · have hj0 : j = 0 := Nat.lt_one_iff.mp hj
      subst hj0
      exact (by decide : inspect_adapter 256 (⟨0, 0, 0, 0, 0⟩ : AdapterInfo) = none)
    · exact (by decide : inspect_adapter 256 (⟨1, 256, 4, 1, 1⟩ : AdapterInfo) =
        some { properties := 1 })
  · exact h.2.1 [⟨2, 512, 4, 1, 1⟩] (by decide)

/-- The per-buffer loop returns one `CommandBuffer` per raw buffer, in
order. -/
theorem mkCommandBuffers_raws : ∀ (name : String) (raws : List Nat) (next : Nat),
    (mkCommandBuffers name raws next).1.map (·.raw) = raws
  | _, [], _ => rfl
  | name, raw :: rest, next => by
      rcases hrec : mkCommandBuffers name rest (next + 1) with ⟨tail, next', calls⟩
      have ih := mkCommandBuffers_raws name rest (next + 1)
      rw [hrec] at ih
      simp only [mkCommandBuffers, hrec]
      simpa using ih

/-- The descriptor pools handed to the buffers are the consecutive fresh
handles starting at `next`. -/
theorem mkCommandBuffers_pools : ∀ (name : String) (raws : List Nat) (next : Nat),
    (mkCommandBuffers name raws next).1.map (·.descriptor_pool) =
      List.range' next raws.length
  | _, [], _ => rfl
  | name, raw :: rest, next => by
      rcases hrec : mkCommandBuffers name rest (next + 1) with ⟨tail, next', calls⟩
      have ih := mkCommandBuffers_pools name rest (next + 1)
      rw [hrec] at ih
      simp only [mkCommandBuffers, hrec, List.length_cons, List.range'_succ]
      simpa using ih

/-- One pair per raw command buffer. -/
theorem mkCommandBuffers_length (name : String) (raws : List Nat) (next : Nat) :
    (mkCommandBuffers name raws next).1.length = raws.length := by
  conv_rhs => rw [← mkCommandBuffers_raws name raws next]
  rw [List.length_map]

/-- Every call the per-buffer loop makes is a debug label or a
descriptor-pool creation. -/
theorem mkCommandBuffers_calls_shape : ∀ (name : String) (raws : List Nat)
    (next : Nat) (c : VkCall), c ∈ (mkCommandBuffers name raws next).2.2 →
    (∃ h nm, c = VkCall.setObjectName h nm)
    ∨ (∃ p, c = VkCall.createDescriptorPool ROUGH_SET_COUNT p)
  | name, [], next, c, hc => absurd hc (by simp [mkCommandBuffers])
  | name, raw :: rest, next, c, hc => by
      rcases hrec : mkCommandBuffers name rest (next + 1) with ⟨tail, next', calls⟩
      rw [mkCommandBuffers, hrec] at hc
      simp only at hc
      rcases List.mem_append.mp hc with hn | hdc
      · left
        by_cases hname : name = ""
        · rw [if_pos hname] at hn; simp at hn
        · rw [if_neg hname] at hn
          simp at hn
          exact ⟨raw, name, hn⟩
      · rcases List.mem_cons.mp hdc with heq | htail
        · exact Or.inr ⟨next, heq⟩
        · have := mkCommandBuffers_calls_shape name rest (next + 1) c
          rw [hrec] at this
          exact this htail

/-- When the name is non-empty, every produced buffer got a debug label. -/
theorem mkCommandBuffers_label_mem : ∀ (name : String) (raws : List Nat)
    (next : Nat), name ≠ "" →
    ∀ b ∈ (mkCommandBuffers name raws next).1,
      VkCall.setObjectName b.raw name ∈ (mkCommandBuffers name raws next).2.2
  | name, [], next, _, b, hb => absurd hb (by simp [mkCommandBuffers])
  | name, raw :: rest, next, hname, b, hb => by
      rcases hrec : mkCommandBuffers name rest (next + 1) with ⟨tail, next', calls⟩
      rw [mkCommandBuffers, hrec] at hb ⊢
      simp only at hb ⊢
      rw [if_neg hname]
      rcases List.mem_cons.mp hb with heq | htail
      · subst heq; simp
      · have := mkCommandBuffers_label_mem name rest (next + 1) hname b
        rw [hrec] at this
        simp [this htail]

/-- When the name is empty, the loop emits no debug label at all. -/
theorem mkCommandBuffers_no_label : ∀ (raws : List Nat) (next : Nat)
    (h : Nat) (nm : String),
    VkCall.setObjectName h nm ∉ (mkCommandBuffers "" raws next).2.2
  | [], next, h, nm => by simp [mkCommandBuffers]
  | raw :: rest, next, h, nm => by
      rcases hrec : mkCommandBuffers "" rest (next + 1) with ⟨tail, next', calls⟩
      simp only [mkCommandBuffers, hrec, if_pos rfl, List.nil_append]
      intro hmem
      rcases List.mem_cons.mp hmem with heq | htail
      · cases heq
      · have hrest := mkCommandBuffers_no_label rest (next + 1) h nm
        rw [hrec] at hrest
        exact hrest htail

/-- Every produced buffer's descriptor pool was created by the loop. -/
theorem mkCommandBuffers_pool_mem : ∀ (name : String) (raws : List Nat)
    (next : Nat), ∀ b ∈ (mkCommandBuffers name raws next).1,
      VkCall.createDescriptorPool ROUGH_SET_COUNT b.descriptor_pool ∈
        (mkCommandBuffers name raws next).2.2
  | name, [], next, b, hb => absurd hb (by simp [mkCommandBuffers])
  | name, raw :: rest, next, b, hb => by
      rcases hrec : mkCommandBuffers name rest (next + 1) with ⟨tail, next', calls⟩
      rw [mkCommandBuffers, hrec] at hb ⊢
      simp only at hb ⊢
      rcases List.mem_cons.mp hb with heq | htail
      · subst heq; simp
      · have := mkCommandBuffers_pool_mem name rest (next + 1) b
        rw [hrec] at this
        simp [this htail]

/-- C7: `create_command_encoder` yields exactly `buffer_count` command
buffers, each paired with its own freshly created descriptor pool (all pools
distinct and each created by a `createDescriptorPool` call), all allocated
by the single `allocateCommandBuffers` call on the encoder's one command
pool; the descriptor's name is applied as a debug label on every buffer
exactly when it is non-empty. -/
theorem create_command_encoder_spec (st n : Nat) (name : String) :
    (create_command_encoder st ⟨n, name⟩).1.buffers.length = n
    ∧ ((create_command_encoder st ⟨n, name⟩).1.buffers.map
        (·.descriptor_pool)).Nodup
    ∧ (∀ b ∈ (create_command_encoder st ⟨n, name⟩).1.buffers,
        VkCall.createDescriptorPool ROUGH_SET_COUNT b.descriptor_pool ∈
          (create_command_encoder st ⟨n, name⟩).2.2)
    ∧ VkCall.allocateCommandBuffers (create_command_encoder st ⟨n, name⟩).1.pool
        n ((create_command_encoder st ⟨n, name⟩).1.buffers.map (·.raw)) ∈
          (create_command_encoder st ⟨n, name⟩).2.2
    ∧ ((create_command_encoder st ⟨n, name⟩).2.2.countP fun c =>
        match c with
        | .allocateCommandBuffers _ _ _ => true
        | _ => false) = 1
    ∧ (name ≠ "" → ∀ b ∈ (create_command_encoder st ⟨n, name⟩).1.buffers,
        VkCall.setObjectName b.raw name ∈ (create_command_encoder st ⟨n, name⟩).2.2)
    ∧ (name = "" → ∀ (h : Nat) (nm : String),
        VkCall.setObjectName h nm ∉ (create_command_encoder st ⟨n, name⟩).2.2) := by
  rcases hrec : mkCommandBuffers name (List.range' (st + 1) n) (st + 1 + n)
    with ⟨buffers, next', calls⟩
  have hlen := mkCommandBuffers_length name (List.range' (st + 1) n) (st + 1 + n)
  have hraws := mkCommandBuffers_raws name (List.range' (st + 1) n) (st + 1 + n)
  have hpools := mkCommandBuffers_pools name (List.range' (st + 1) n) (st + 1 + n)
  have hpoolmem := mkCommandBuffers_pool_mem name (List.range' (st + 1) n) (st + 1 + n)
  have hshape := mkCommandBuffers_calls_shape name (List.range' (st + 1) n) (st + 1 + n)
  have hlabel := mkCommandBuffers_label_mem name (List.range' (st + 1) n) (st + 1 + n)
  rw [hrec] at hlen hraws hpools hpoolmem hshape hlabel
  simp only [create_command_encoder, hrec]
  refine ⟨?_, ?_, ?_, ?_, ?_, ?_, ?_⟩
  · simpa using hlen
  · rw [hpools]; exact List.nodup_range' _ _
  · intro b hb
    simp only [List.mem_cons]
    exact Or.inr (Or.inr (hpoolmem b hb))
  · simp [hraws]
  · have hzero : List.countP (fun c =>
        match c with
        | VkCall.allocateCommandBuffers _ _ _ => true
        | _ => false) calls = 0 := by
      rw [List.countP_eq_zero]
      intro c hc
      rcases hshape c hc with ⟨h, nm, heq⟩ | ⟨p, heq⟩ <;> subst heq <;> simp
    simp [List.countP_cons, hzero]
  · intro hname b hb
    simp only [List.mem_cons]
    exact Or.inr (Or.inr (hlabel hname b hb))
  · intro hname h nm
    subst hname
    have hnol := mkCommandBuffers_no_label (List.range' (st + 1) n) (st + 1 + n) h nm
    rw [hrec] at hnol
    simp only [List.mem_cons]
    rintro (heq | heq | hmem)
    · cases heq
    · cases heq
    · exact hnol hmem

/-- Witness for C7: three buffers with name `"x"`; the three descriptor
pools are distinct and the first buffer is labelled. -/
theorem create_command_encoder_spec_witness :
    (create_command_encoder 0 ⟨3, "x"⟩).1.buffers.length = 3
    ∧ ((create_command_encoder 0 ⟨3, "x"⟩).1.buffers.map
        (·.descriptor_pool)).Nodup
    ∧ VkCall.setObjectName 1 "x" ∈ (create_command_encoder 0 ⟨3, "x"⟩).2.2 := by
  have h := create_command_encoder_spec 0 3 "x"
  refine ⟨h.1, h.2.1, ?_⟩
  have hb := h.2.2.2.2.2.1 (by decide) ⟨1, 4⟩ (by decide)
  simpa using hb

/-- Folding an append-only loop is the same as flat-mapping. -/
theorem foldl_append_calls (f : CommandBuffer → List VkCall) :
    ∀ (bufs : List CommandBuffer) (init : List VkCall),
    bufs.foldl (fun log b => log ++ f b) init = init ++ bufs.flatMap f
  | [], init => by simp
  | b :: rest, init => by
      simp only [List.foldl_cons, List.flatMap_cons]
      rw [foldl_append_calls f rest (init ++ f b), List.append_assoc]

/-- C8: `destroy_command_encoder` frees each command buffer from the pool
and destroys its descriptor pool, in creation order, and destroys the
command pool last: every free and every descriptor-pool destruction occurs
strictly before the command-pool destruction. -/
theorem destroy_command_encoder_spec (encoder : CommandEncoder) :
    destroy_command_encoder encoder =
      (encoder.buffers.flatMap fun b =>
        [VkCall.freeCommandBuffers encoder.pool [b.raw],
         VkCall.destroyDescriptorPool b.descriptor_pool])
      ++ [VkCall.destroyCommandPool encoder.pool]
    ∧ (destroy_command_encoder encoder).getLast? =
        some (VkCall.destroyCommandPool encoder.pool)
    ∧ ∀ c ∈ (destroy_command_encoder encoder).dropLast,
        ∃ b ∈ encoder.buffers,
          c = VkCall.freeCommandBuffers encoder.pool [b.raw]
          ∨ c = VkCall.destroyDescriptorPool b.descriptor_pool := by
  have heq : destroy_command_encoder encoder =
      (encoder.buffers.flatMap fun b =>
        [VkCall.freeCommandBuffers encoder.pool [b.raw],
         VkCall.destroyDescriptorPool b.descriptor_pool])
      ++ [VkCall.destroyCommandPool encoder.pool] := by
    unfold destroy_command_encoder
    rw [foldl_append_calls]
    simp
  refine ⟨heq, ?_, ?_⟩
  · rw [heq]; exact List.getLast?_concat _
  · rw [heq, List.dropLast_concat]
    intro c hc
    rw [List.mem_flatMap] at hc
    obtain ⟨b, hb, hcb⟩ := hc
    refine ⟨b, hb, ?_⟩
    simpa using hcb

/-- Witness for C8 at a concrete two-buffer encoder. -/
theorem destroy_command_encoder_spec_witness :
    destroy_command_encoder ⟨0, [⟨1, 4⟩, ⟨2, 5⟩], []⟩ =
      [VkCall.freeCommandBuffers 0 [1], VkCall.destroyDescriptorPool 4,
       VkCall.freeCommandBuffers 0 [2], VkCall.destroyDescriptorPool 5,
       VkCall.destroyCommandPool 0] := by
  have h := (destroy_command_encoder_spec ⟨0, [⟨1, 4⟩, ⟨2, 5⟩], []⟩).1
  rw [h]
  rfl

end Blade
